import Mathlib

/-!
Shallow embedding of the FamPoints bot event-to-state reduction engine
(`src/index.js`).  The SQLite tables become components of `BotState`:
primary-keyed tables that are only accessed by key become finite maps
(functions `Nat × Nat → Option _`), while `invite_joins` and `invite_links`
— which the code scans with `LIMIT`/token lookups in row order — become
association lists in insertion (rowid) order.  Machine integers of the
store are modelled as `Int` (SQLite INTEGER), timestamps as `Nat` seconds.
JavaScript truthiness of strings and numeric ids is modelled explicitly.
-/

namespace FamPoints

/-- Telegram user object as the handlers see it (`ctx.from`, members, reply authors). -/
structure TgUser where
  id : Nat
  username : Option String
  firstName : Option String
deriving DecidableEq

/-- A row of the `stats` table (all counters `INTEGER NOT NULL DEFAULT 0`). -/
structure Stats where
  messages : Int
  karma : Int
  karmaGiven : Int
  invitesPending : Int
  invitesConfirmed : Int
deriving DecidableEq

/-- The zero row inserted by `INSERT INTO stats (chat_id, user_id)`. -/
def Stats.zero : Stats := ⟨0, 0, 0, 0, 0⟩

/-- A row of the `users` table (identity fields only). -/
structure UserRow where
  username : Option String
  firstName : Option String
deriving DecidableEq

/-- A row of the `invite_joins` table. -/
structure JoinRow where
  chatId : Nat
  joinedUserId : Nat
  inviterId : Option Nat
  joinedAt : Nat
  confirmed : Bool
deriving DecidableEq

/-- A row of the `invite_links` table. -/
structure LinkRow where
  chatId : Nat
  inviterId : Nat
  token : String
deriving DecidableEq

/-- The whole database. -/
structure BotState where
  users : Nat × Nat → Option UserRow
  stats : Nat × Nat → Option Stats
  cooldowns : Nat × Nat → Option Nat
  inviteLinks : List LinkRow
  joins : List JoinRow

/-- `KARMA_COOLDOWN_SECONDS` config knob. -/
def KARMA_COOLDOWN_SECONDS : Nat := 30

/-- `INVITE_CONFIRM_AFTER_SECONDS` config knob. -/
def INVITE_CONFIRM_AFTER_SECONDS : Nat := 24 * 3600

/-- `INVITE_CONFIRM_MIN_MESSAGES` config knob. -/
def INVITE_CONFIRM_MIN_MESSAGES : Int := 3

/-- One normalized chat event handled by `bot.on("message")`; `time` is `now()`. -/
structure MsgEvent where
  chatId : Nat
  sender : Option TgUser
  text : Option String
  replyToUser : Option TgUser
  newMembers : List TgUser
  inviteLink : Option String
  time : Nat
deriving DecidableEq

/-- Point update of a keyed map. -/
def upd {α : Type} (m : Nat × Nat → Option α) (k : Nat × Nat) (v : Option α) :
    Nat × Nat → Option α :=
  fun k' => if k' = k then v else m k'

/-- JavaScript truthiness of an optional string (`undefined`, `null` and `""` are falsy). -/
def truthyStr : Option String → Bool
  | some s => !(s == "")
  | none => false

/-- `u.username || null`: an empty string collapses to null. -/
def normStr : Option String → Option String
  | some s => if s == "" then none else some s
  | none => none

/-- The whitespace class stripped by `String.prototype.trim` (ASCII part). -/
def isJsWs (ch : Char) : Bool :=
  ch = ' ' || ch = '\t' || ch = '\n' || ch = '\r'

/-- `s.trim()`. -/
def jsTrim (s : String) : String :=
  String.mk (((s.data.dropWhile isJsWs).reverse.dropWhile isJsWs).reverse)

/-- `text.startsWith("/")`. -/
def startsWithSlash (s : String) : Bool :=
  match s.data with
  | [] => false
  | ch :: _ => ch = '/'

/-- `upsertUser(chatId, u)`: upsert identity row, insert-or-ignore the stats row. -/
def upsertUser (chatId : Nat) (u : TgUser) (st : BotState) : BotState :=
  if u.id = 0 then st
  else
    { st with
      users := upd st.users (chatId, u.id) (some ⟨normStr u.username, normStr u.firstName⟩),
      stats := fun k =>
        if k = (chatId, u.id) then some ((st.stats k).getD Stats.zero) else st.stats k }

/-- The stats row for `(c, k)` as observed (missing row reads as zeros). -/
def statsOf (st : BotState) (c k : Nat) : Stats :=
  (st.stats (c, k)).getD Stats.zero

/-- Observed message counter. -/
def messagesOf (st : BotState) (c k : Nat) : Int := (statsOf st c k).messages

/-- Observed karma counter. -/
def karmaOf (st : BotState) (c k : Nat) : Int := (statsOf st c k).karma

/-- Observed karma-given counter. -/
def karmaGivenOf (st : BotState) (c k : Nat) : Int := (statsOf st c k).karmaGiven

/-- Observed pending-invites counter. -/
def pendingOf (st : BotState) (c k : Nat) : Int := (statsOf st c k).invitesPending

/-- Observed confirmed-invites counter. -/
def confirmedInvOf (st : BotState) (c k : Nat) : Int := (statsOf st c k).invitesConfirmed

/-- `UPDATE stats SET ... WHERE chat_id=? AND user_id=?`: touches the row only if it exists. -/
def updateStats (st : BotState) (k : Nat × Nat) (f : Stats → Stats) : BotState :=
  { st with stats := fun k' => if k' = k then (st.stats k').map f else st.stats k' }

/-- `INSERT INTO stats (chat_id, user_id) ... ON CONFLICT DO NOTHING`. -/
def ensureStats (st : BotState) (k : Nat × Nat) : BotState :=
  { st with stats := fun k' =>
      if k' = k then some ((st.stats k').getD Stats.zero) else st.stats k' }

/-- Primary key of an `invite_joins` row. -/
def joinKey (r : JoinRow) : Nat × Nat := (r.chatId, r.joinedUserId)

/-- Point lookup on `invite_joins` by primary key. -/
def lookupJoin (l : List JoinRow) (k : Nat × Nat) : Option JoinRow :=
  l.find? (fun r => decide (joinKey r = k))

/-- `UPDATE invite_joins SET confirmed=1 WHERE chat_id=? AND joined_user_id=?`. -/
def setConfirmed (l : List JoinRow) (k : Nat × Nat) : List JoinRow :=
  l.map (fun r => if joinKey r = k then { r with confirmed := true } else r)

/-- `INSERT INTO invite_joins ... ON CONFLICT(chat_id, joined_user_id) DO NOTHING`. -/
def insertJoin (st : BotState) (row : JoinRow) : BotState :=
  if (lookupJoin st.joins (joinKey row)).isSome then st
  else { st with joins := st.joins ++ [row] }

/-- `SELECT inviter_id FROM invite_links WHERE chat_id=? AND invite_link=?`, guarded by
the JS truthiness checks on the link string and on the found `inviter_id`. -/
def resolveInviter (links : List LinkRow) (chatId : Nat) (tok : Option String) : Option Nat :=
  match tok with
  | none => none
  | some l =>
    if l == "" then none
    else
      match links.find? (fun r => decide (r.chatId = chatId ∧ r.token = l)) with
      | some row => if row.inviterId = 0 then none else some row.inviterId
      | none => none

/-- Outcome of one karma-grant attempt (which `return` path lines 229‑240 took). -/
inductive GrantResult where
  | granted
  | badTarget
  | selfGrant
  | rateLimited
deriving DecidableEq

/-- The successful grant body (lines 242‑258): set the cooldown to `t`, upsert the
recipient, bump the recipient's karma and the giver's karma-given. -/
def doGrant (c : Nat) (giver target : TgUser) (t : Nat) (st : BotState) : BotState :=
  let st1 : BotState := { st with cooldowns := upd st.cooldowns (c, giver.id) (some t) }
  let st2 := upsertUser c target st1
  let st3 := updateStats st2 (c, target.id) (fun s => { s with karma := s.karma + 1 })
  updateStats st3 (c, giver.id) (fun s => { s with karmaGiven := s.karmaGiven + 1 })

/-- The karma engine (lines 228‑258): target-id truthiness, self-grant check,
per-giver cooldown check, then the grant. -/
def grantKarma (c : Nat) (giver target : TgUser) (t : Nat) (st : BotState) :
    BotState × GrantResult :=
  if target.id = 0 then (st, GrantResult.badTarget)
  else if target.id = giver.id then (st, GrantResult.selfGrant)
  else
    match st.cooldowns (c, giver.id) with
    | some last =>
      if t - last < KARMA_COOLDOWN_SECONDS then (st, GrantResult.rateLimited)
      else (doGrant c giver target t st, GrantResult.granted)
    | none => (doGrant c giver target t st, GrantResult.granted)

/-- One iteration of the confirmation loop (lines 272‑292) on a candidate row. -/
def sweepStep (chatId t : Nat) (st : BotState) (cand : JoinRow) : BotState :=
  if t - cand.joinedAt < INVITE_CONFIRM_AFTER_SECONDS then st
  else if messagesOf st chatId cand.joinedUserId < INVITE_CONFIRM_MIN_MESSAGES then st
  else
    let st1 : BotState := { st with joins := setConfirmed st.joins (chatId, cand.joinedUserId) }
    match cand.inviterId with
    | some inv =>
      updateStats st1 (chatId, inv) (fun s =>
        { s with
          invitesPending := if s.invitesPending > 0 then s.invitesPending - 1 else 0,
          invitesConfirmed := s.invitesConfirmed + 1 })
    | none => st1

/-- The candidate batch (lines 265‑270): up to 5 unconfirmed attributed joins of this chat. -/
def candidates (st : BotState) (chatId : Nat) : List JoinRow :=
  (st.joins.filter (fun r =>
    decide (r.chatId = chatId ∧ r.confirmed = false ∧ r.inviterId ≠ none))).take 5

/-- The lightweight confirmation sweep (lines 264‑292). -/
def confirmSweep (chatId t : Nat) (st : BotState) : BotState :=
  (candidates st chatId).foldl (sweepStep chatId t) st

/-- Join tracking for one joined member (lines 177‑207). -/
def handleJoinOne (chatId t : Nat) (tok : Option String) (st : BotState) (ju : TgUser) :
    BotState :=
  let st1 := upsertUser chatId ju st
  let inviterId := resolveInviter st1.inviteLinks chatId tok
  let st2 := insertJoin st1 ⟨chatId, ju.id, inviterId, t, false⟩
  match inviterId with
  | some inv =>
    let st3 := ensureStats st2 (chatId, inv)
    updateStats st3 (chatId, inv) (fun s => { s with invitesPending := s.invitesPending + 1 })
  | none => st2

/-- The trimmed text of an event (`const text = (ctx.message.text || "").trim()`). -/
def textOf (ev : MsgEvent) : String := jsTrim (ev.text.getD "")

/-- Steps 214‑224 of the handler: upsert the sender, count the message if the raw
text is truthy and the trimmed text is not a command. -/
def countedState (ev : MsgEvent) (u : TgUser) (st : BotState) : BotState :=
  let st1 := upsertUser ev.chatId u st
  if truthyStr ev.text && !startsWithSlash (textOf ev) then
    updateStats st1 (ev.chatId, u.id) (fun s => { s with messages := s.messages + 1 })
  else st1

/-- The non-join part of the message handler (lines 214‑292): count, karma (with the
early `return`s that also skip the sweep), then the confirmation sweep. -/
def reduceMsg (ev : MsgEvent) (u : TgUser) (st : BotState) : BotState :=
  let st2 := countedState ev u st
  match ev.replyToUser with
  | some target =>
    if truthyStr ev.text && (textOf ev == "+") then
      let res := grantKarma ev.chatId u target ev.time st2
      if res.snd = GrantResult.granted then confirmSweep ev.chatId ev.time res.fst
      else res.fst
    else confirmSweep ev.chatId ev.time st2
  | none => confirmSweep ev.chatId ev.time st2

/-- The whole `bot.on("message")` handler for one event. -/
def reduce (ev : MsgEvent) (st : BotState) : BotState :=
  if ev.newMembers = [] then
    match ev.sender with
    | none => st
    | some u => if u.id = 0 then st else reduceMsg ev u st
  else ev.newMembers.foldl (handleJoinOne ev.chatId ev.time ev.inviteLink) st

/-- Reduction of a whole event stream, in delivery order. -/
def reduceAll (evs : List MsgEvent) (st : BotState) : BotState :=
  evs.foldl (fun s e => reduce e s) st

/-- The state a non-join message event produces just before the sweep would run:
upsert, message count, and the karma engine's state effect. -/
def preSweep (ev : MsgEvent) (u : TgUser) (st : BotState) : BotState :=
  let st2 := countedState ev u st
  match ev.replyToUser with
  | some target =>
    if truthyStr ev.text && (textOf ev == "+") then
      (grantKarma ev.chatId u target ev.time st2).fst
    else st2
  | none => st2

/-- Whether the event is a "+" reply whose grant the engine rejects — exactly the
cases in which the handler `return`s before the confirmation sweep. -/
def grantRejected (ev : MsgEvent) (u : TgUser) (st : BotState) : Bool :=
  let st2 := countedState ev u st
  match ev.replyToUser with
  | some target =>
    truthyStr ev.text && (textOf ev == "+") &&
      !((grantKarma ev.chatId u target ev.time st2).snd == GrantResult.granted)
  | none => false

/-- Whether the giver's cooldown row blocks a grant at time `t` (lines 235‑240). -/
def cooldownActiveB (st : BotState) (c g t : Nat) : Bool :=
  match st.cooldowns (c, g) with
  | some last => decide (t - last < KARMA_COOLDOWN_SECONDS)
  | none => false

/-- `bot.command("myinvite")` state logic: return the stored token if its row exists
and the token is truthy; insert a fresh one if no row exists; `none` models the
thrown primary-key violation when a row with an empty token exists.  The `Bool`
records whether the external link creator was invoked and its token persisted. -/
def getOrCreateInviteLink (c i : Nat) (fresh : String) (links : List LinkRow) :
    Option (String × List LinkRow × Bool) :=
  match links.find? (fun r => decide (r.chatId = c ∧ r.inviterId = i)) with
  | some row => if row.token == "" then none else some (row.token, links, false)
  | none => some (fresh, links ++ [⟨c, i, fresh⟩], true)

/-- Point lookup on `invite_links` by primary key. -/
def lookupLink (l : List LinkRow) (c i : Nat) : Option String :=
  (l.find? (fun r => decide (r.chatId = c ∧ r.inviterId = i))).map LinkRow.token

/-- Number of `invite_links` rows sharing one primary key. -/
def linkRowCount (l : List LinkRow) (c i : Nat) : Nat :=
  (l.filter (fun r => decide (r.chatId = c ∧ r.inviterId = i))).length

/-- Whether the handler counts this event towards user `uid`'s message counter in
chat `c` (the code's condition: raw text truthy, TRIMMED text not a command). -/
def countsMsg (c uid : Nat) (ev : MsgEvent) : Bool :=
  decide (ev.chatId = c) && ev.newMembers.isEmpty &&
    (match ev.sender with
     | some u => decide (u.id = uid)
     | none => false) &&
    truthyStr ev.text && !startsWithSlash (textOf ev)

/-- The claim's counting condition, read literally on the RAW text: non-empty and
not starting with "/". -/
def countsMsgRaw (c uid : Nat) (ev : MsgEvent) : Bool :=
  decide (ev.chatId = c) && ev.newMembers.isEmpty &&
    (match ev.sender with
     | some u => decide (u.id = uid)
     | none => false) &&
    truthyStr ev.text && !startsWithSlash (ev.text.getD "")

/-- Uniqueness of `invite_joins` primary keys (the table's `PRIMARY KEY` constraint). -/
def keysNodup (l : List JoinRow) : Prop := (l.map joinKey).Nodup

/-- One step of state evolution respects the invite-counter invariants: per key,
non-negativity of `invitesPending` is preserved and `invitesPending +
invitesConfirmed` does not decrease. -/
def C8ok (st st' : BotState) : Prop :=
  ∀ c k, (0 ≤ pendingOf st c k → 0 ≤ pendingOf st' c k) ∧
    pendingOf st c k + confirmedInvOf st c k
      ≤ pendingOf st' c k + confirmedInvOf st' c k

instance : DecidablePred keysNodup := fun l => by
  unfold keysNodup; infer_instance

/-- The freshly created database. -/
def emptyState : BotState :=
  ⟨fun _ => none, fun _ => none, fun _ => none, [], []⟩

/-- Sample user with id 7. -/
def u7 : TgUser := ⟨7, none, none⟩

/-- Sample user with id 9. -/
def u9 : TgUser := ⟨9, none, none⟩

/-- Sample user with id 2. -/
def u2 : TgUser := ⟨2, none, none⟩

/-- A state whose only content is a zero stats row for user 7 in chat 1. -/
def stW : BotState :=
  { emptyState with stats := fun k => if k = (1, 7) then some Stats.zero else none }

/-- A state with one pending attributed join (user 5 invited by user 3 in chat 1 at
time 0) whose joined user already has 3 messages. -/
def stPend : BotState :=
  { emptyState with
    joins := [⟨1, 5, some 3, 0, false⟩],
    stats := fun k => if k = (1, 5) then some ⟨3, 0, 0, 0, 0⟩ else none }

/-- A state that already tracks the join of user 2 (invited by user 3) in chat 1,
with user 3's invite link "T" registered. -/
def stTracked : BotState :=
  { emptyState with
    joins := [⟨1, 2, some 3, 0, false⟩],
    inviteLinks := [⟨1, 3, "T"⟩] }

/-- A self-grant "+" reply from user 7 in chat 1, late enough for stPend's candidate. -/
def evSelf : MsgEvent := ⟨1, some u7, some "+", some u7, [], none, 100000⟩

/-- A duplicate join notification for user 2 carrying inviter 3's link. -/
def evDupJoin : MsgEvent := ⟨1, none, none, none, [u2], some "T", 50⟩

/-- A "+" reply with leading whitespace from user 7 to user 9. -/
def evSpacePlus : MsgEvent := ⟨1, some u7, some " +", some u9, [], none, 40⟩

/-- A message whose raw text starts with whitespace followed by a command. -/
def evWsCmd : MsgEvent := ⟨1, some u7, some "  /x", none, [], none, 10⟩

/-! ### Generic fold lemmas -/

lemma foldl_fix {α β γ : Type _} (f : β → α → β) (g : β → γ)
    (h : ∀ b a, g (f b a) = g b) (l : List α) (b : β) :
    g (l.foldl f b) = g b := by
  induction l generalizing b with
  | nil => rfl
  | cons x xs ih => rw [List.foldl_cons, ih, h]

lemma foldl_pres {α β : Type _} (f : β → α → β) (P : β → Prop)
    (h : ∀ b a, P b → P (f b a)) (l : List α) (b : β) (hb : P b) :
    P (l.foldl f b) := by
  induction l generalizing b with
  | nil => exact hb
  | cons x xs ih => exact ih _ (h _ _ hb)

lemma findAppendSome {α : Type} (p : α → Bool) (l₁ l₂ : List α) (a : α)
    (h : l₁.find? p = some a) : (l₁ ++ l₂).find? p = some a := by
  induction l₁ with
  | nil => simp [List.find?] at h
  | cons x xs ih =>
    rw [List.cons_append]
    cases hx : p x with
    | true => rw [List.find?_cons_of_pos _ hx] at h ⊢; exact h
    | false =>
      rw [List.find?_cons_of_neg _ (by simp [hx])] at h ⊢
      exact ih h

lemma findAppendNone {α : Type} (p : α → Bool) (l₁ l₂ : List α)
    (h : l₁.find? p = none) : (l₁ ++ l₂).find? p = l₂.find? p := by
  induction l₁ with
  | nil => rfl
  | cons x xs ih =>
    rw [List.cons_append]
    cases hx : p x with
    | true => rw [List.find?_cons_of_pos _ hx] at h; exact absurd h (by simp)
    | false =>
      rw [List.find?_cons_of_neg _ (by simp [hx])] at h ⊢
      exact ih h

/-! ### Frame lemmas for `upsertUser` -/

lemma upsertUser_cooldowns (c : Nat) (u : TgUser) (st : BotState) :
    (upsertUser c u st).cooldowns = st.cooldowns := by
  unfold upsertUser; split <;> rfl

lemma upsertUser_joins (c : Nat) (u : TgUser) (st : BotState) :
    (upsertUser c u st).joins = st.joins := by
  unfold upsertUser; split <;> rfl

lemma upsertUser_links (c : Nat) (u : TgUser) (st : BotState) :
    (upsertUser c u st).inviteLinks = st.inviteLinks := by
  unfold upsertUser; split <;> rfl

lemma statsOf_upsertUser (c : Nat) (u : TgUser) (st : BotState) (c' k' : Nat) :
    statsOf (upsertUser c u st) c' k' = statsOf st c' k' := by
  unfold upsertUser statsOf
  split
  · rfl
  · dsimp only
    split
    · cases st.stats (c', k') <;> rfl
    · rfl

lemma upsertUser_stats_ne (c : Nat) (u : TgUser) (st : BotState) (k' : Nat × Nat)
    (h : k' ≠ (c, u.id)) : (upsertUser c u st).stats k' = st.stats k' := by
  unfold upsertUser
  split
  · rfl
  · dsimp only; rw [if_neg h]

lemma upsertUser_stats_self (c : Nat) (u : TgUser) (st : BotState) (h : u.id ≠ 0) :
    (upsertUser c u st).stats (c, u.id) = some ((st.stats (c, u.id)).getD Stats.zero) := by
  unfold upsertUser
  rw [if_neg h]
  dsimp only
  rw [if_pos rfl]

/-! ### Frame lemmas for `updateStats` and `ensureStats` -/

lemma updateStats_cooldowns (st : BotState) (k : Nat × Nat) (f : Stats → Stats) :
    (updateStats st k f).cooldowns = st.cooldowns := rfl

lemma updateStats_joins (st : BotState) (k : Nat × Nat) (f : Stats → Stats) :
    (updateStats st k f).joins = st.joins := rfl

lemma updateStats_links (st : BotState) (k : Nat × Nat) (f : Stats → Stats) :
    (updateStats st k f).inviteLinks = st.inviteLinks := rfl

lemma updateStats_users (st : BotState) (k : Nat × Nat) (f : Stats → Stats) :
    (updateStats st k f).users = st.users := rfl

lemma updateStats_stats_ne (st : BotState) (k k' : Nat × Nat) (f : Stats → Stats)
    (h : k' ≠ k) : (updateStats st k f).stats k' = st.stats k' := by
  unfold updateStats; dsimp only; rw [if_neg h]

lemma updateStats_stats_eq (st : BotState) (k : Nat × Nat) (f : Stats → Stats) :
    (updateStats st k f).stats k = (st.stats k).map f := by
  unfold updateStats; dsimp only; rw [if_pos rfl]

lemma statsOf_updateStats_self (st : BotState) (c k2 : Nat) (f : Stats → Stats) (s : Stats)
    (h : st.stats (c, k2) = some s) : statsOf (updateStats st (c, k2) f) c k2 = f s := by
  unfold statsOf
  rw [updateStats_stats_eq, h]
  rfl

lemma statsOf_updateStats_ne (st : BotState) (k : Nat × Nat) (c' k' : Nat) (f : Stats → Stats)
    (h : (c', k') ≠ k) : statsOf (updateStats st k f) c' k' = statsOf st c' k' := by
  unfold statsOf
  rw [updateStats_stats_ne _ _ _ _ h]

lemma statsProj_updateStats {γ : Type} (g : Stats → γ) (f : Stats → Stats)
    (hf : ∀ s, g (f s) = g s) (st : BotState) (k : Nat × Nat) (c' k' : Nat) :
    g (statsOf (updateStats st k f) c' k') = g (statsOf st c' k') := by
  unfold updateStats statsOf
  dsimp only
  split
  · cases st.stats (c', k') with
    | none => rfl
    | some s => exact hf s
  · rfl

lemma statsOf_ensureStats (st : BotState) (k : Nat × Nat) (c' k' : Nat) :
    statsOf (ensureStats st k) c' k' = statsOf st c' k' := by
  unfold ensureStats statsOf
  dsimp only
  split
  · cases st.stats (c', k') <;> rfl
  · rfl

lemma ensureStats_stats_eq (st : BotState) (k : Nat × Nat) :
    (ensureStats st k).stats k = some ((st.stats k).getD Stats.zero) := by
  unfold ensureStats; dsimp only; rw [if_pos rfl]

lemma ensureStats_stats_ne (st : BotState) (k k' : Nat × Nat) (h : k' ≠ k) :
    (ensureStats st k).stats k' = st.stats k' := by
  unfold ensureStats; dsimp only; rw [if_neg h]

lemma ensureStats_cooldowns (st : BotState) (k : Nat × Nat) :
    (ensureStats st k).cooldowns = st.cooldowns := rfl

lemma ensureStats_joins (st : BotState) (k : Nat × Nat) :
    (ensureStats st k).joins = st.joins := rfl

lemma ensureStats_links (st : BotState) (k : Nat × Nat) :
    (ensureStats st k).inviteLinks = st.inviteLinks := rfl

/-! ### Lemmas about the `invite_joins` list -/

lemma flip_confirmed_idem (r : JoinRow) (h : r.confirmed = true) :
    ({ r with confirmed := true } : JoinRow) = r := by
  cases r
  simp_all

lemma joinKey_flip (r : JoinRow) : joinKey { r with confirmed := true } = joinKey r := rfl

lemma lookupJoin_found_key (l : List JoinRow) (k : Nat × Nat) (r : JoinRow)
    (h : lookupJoin l k = some r) : joinKey r = k := by
  have := List.find?_some h
  exact of_decide_eq_true this

lemma lookupJoin_setConfirmed (l : List JoinRow) (k0 k : Nat × Nat) :
    lookupJoin (setConfirmed l k0) k =
      (lookupJoin l k).map
        (fun r => if joinKey r = k0 then { r with confirmed := true } else r) := by
  induction l with
  | nil => rfl
  | cons x xs ih =>
    unfold setConfirmed lookupJoin
    rw [List.map_cons]
    have hk : joinKey (if joinKey x = k0 then { x with confirmed := true } else x)
        = joinKey x := by split <;> rfl
    by_cases h : joinKey x = k
    · have e1 : List.find? (fun r => decide (joinKey r = k))
          ((if joinKey x = k0 then { x with confirmed := true } else x) ::
            List.map (fun r => if joinKey r = k0 then { r with confirmed := true } else r) xs)
          = some (if joinKey x = k0 then { x with confirmed := true } else x) :=
        List.find?_cons_of_pos _ (by rw [hk]; exact decide_eq_true h)
      have e2 : List.find? (fun r => decide (joinKey r = k)) (x :: xs) = some x :=
        List.find?_cons_of_pos _ (decide_eq_true h)
      rw [e1, e2]
      rfl
    · have e1 : List.find? (fun r => decide (joinKey r = k))
          ((if joinKey x = k0 then { x with confirmed := true } else x) ::
            List.map (fun r => if joinKey r = k0 then { r with confirmed := true } else r) xs)
          = List.find? (fun r => decide (joinKey r = k))
              (List.map (fun r => if joinKey r = k0 then { r with confirmed := true } else r) xs) :=
        List.find?_cons_of_neg _ (by rw [hk]; simp [h])
      have e2 : List.find? (fun r => decide (joinKey r = k)) (x :: xs)
          = List.find? (fun r => decide (joinKey r = k)) xs :=
        List.find?_cons_of_neg _ (by simp [h])
      rw [e1, e2]
      exact ih

lemma lookupJoin_append_some (l l₂ : List JoinRow) (k : Nat × Nat) (r : JoinRow)
    (h : lookupJoin l k = some r) : lookupJoin (l ++ l₂) k = some r :=
  findAppendSome _ _ _ _ h

lemma insertJoin_stats (st : BotState) (row : JoinRow) :
    (insertJoin st row).stats = st.stats := by
  unfold insertJoin; split <;> rfl

lemma insertJoin_cooldowns (st : BotState) (row : JoinRow) :
    (insertJoin st row).cooldowns = st.cooldowns := by
  unfold insertJoin; split <;> rfl

lemma insertJoin_links (st : BotState) (row : JoinRow) :
    (insertJoin st row).inviteLinks = st.inviteLinks := by
  unfold insertJoin; split <;> rfl

lemma insertJoin_joins_mono (st : BotState) (row : JoinRow) (k : Nat × Nat) (r : JoinRow)
    (h : lookupJoin st.joins k = some r) :
    lookupJoin (insertJoin st row).joins k = some r := by
  unfold insertJoin
  split
  · exact h
  · exact lookupJoin_append_some _ _ _ _ h

lemma insertJoin_of_present (st : BotState) (row : JoinRow)
    (h : (lookupJoin st.joins (joinKey row)).isSome = true) :
    insertJoin st row = st := by
  unfold insertJoin
  rw [if_pos h]

lemma lookup_unique_of_nodup (l : List JoinRow) (k : Nat × Nat) (r r' : JoinRow)
    (hnd : keysNodup l) (hmem : r' ∈ l) (hk : joinKey r' = k)
    (h : lookupJoin l k = some r) : r' = r := by
  induction l with
  | nil => cases hmem
  | cons x xs ih =>
    unfold keysNodup at hnd
    rw [List.map_cons, List.nodup_cons] at hnd
    by_cases hx : joinKey x = k
    · unfold lookupJoin at h
      rw [List.find?_cons_of_pos _ (by simp [hx])] at h
      cases h
      cases hmem with
      | head => rfl
      | tail _ hmem2 =>
        exact absurd (hx.symm ▸ hk ▸ List.mem_map_of_mem joinKey hmem2) hnd.1
    · unfold lookupJoin at h
      rw [List.find?_cons_of_neg _ (by simp [hx])] at h
      cases hmem with
      | head => exact absurd hk hx
      | tail _ hmem2 => exact ih hnd.2 hmem2 h

/-! ### Frame lemmas for the sweep, the grant and join handling -/

lemma statsOf_insertJoin (st : BotState) (row : JoinRow) (c' k' : Nat) :
    statsOf (insertJoin st row) c' k' = statsOf st c' k' := by
  unfold statsOf
  rw [insertJoin_stats]

lemma sweepStep_cooldowns (c t : Nat) (st : BotState) (cand : JoinRow) :
    (sweepStep c t st cand).cooldowns = st.cooldowns := by
  unfold sweepStep
  split
  · rfl
  · split
    · rfl
    · cases hinv : cand.inviterId with
      | none => rfl
      | some inv => rfl

lemma sweepStep_links (c t : Nat) (st : BotState) (cand : JoinRow) :
    (sweepStep c t st cand).inviteLinks = st.inviteLinks := by
  unfold sweepStep
  split
  · rfl
  · split
    · rfl
    · cases hinv : cand.inviterId with
      | none => rfl
      | some inv => rfl

lemma statsProj_sweepStep {γ : Type} (g : Stats → γ)
    (hg : ∀ s : Stats, g { s with
        invitesPending := if s.invitesPending > 0 then s.invitesPending - 1 else 0,
        invitesConfirmed := s.invitesConfirmed + 1 } = g s)
    (c t : Nat) (st : BotState) (cand : JoinRow) (c' k' : Nat) :
    g (statsOf (sweepStep c t st cand) c' k') = g (statsOf st c' k') := by
  unfold sweepStep
  split
  · rfl
  · split
    · rfl
    · cases hinv : cand.inviterId with
      | none => rfl
      | some inv =>
        exact statsProj_updateStats g _ hg _ _ _ _

lemma cooldowns_confirmSweep (c t : Nat) (st : BotState) :
    (confirmSweep c t st).cooldowns = st.cooldowns :=
  foldl_fix _ BotState.cooldowns (fun b a => sweepStep_cooldowns c t b a) _ st

lemma statsProj_confirmSweep {γ : Type} (g : Stats → γ)
    (hg : ∀ s : Stats, g { s with
        invitesPending := if s.invitesPending > 0 then s.invitesPending - 1 else 0,
        invitesConfirmed := s.invitesConfirmed + 1 } = g s)
    (c t : Nat) (st : BotState) (c' k' : Nat) :
    g (statsOf (confirmSweep c t st) c' k') = g (statsOf st c' k') :=
  foldl_fix _ (fun b => g (statsOf b c' k'))
    (fun b a => statsProj_sweepStep g hg c t b a c' k') _ st

lemma doGrant_joins (c : Nat) (giver target : TgUser) (t : Nat) (st : BotState) :
    (doGrant c giver target t st).joins = st.joins := by
  unfold doGrant
  rw [updateStats_joins, updateStats_joins, upsertUser_joins]

lemma doGrant_cooldowns (c : Nat) (giver target : TgUser) (t : Nat) (st : BotState) :
    (doGrant c giver target t st).cooldowns = upd st.cooldowns (c, giver.id) (some t) := by
  unfold doGrant
  rw [updateStats_cooldowns, updateStats_cooldowns, upsertUser_cooldowns]

lemma statsProj_doGrant {γ : Type} (g : Stats → γ)
    (h1 : ∀ s : Stats, g { s with karma := s.karma + 1 } = g s)
    (h2 : ∀ s : Stats, g { s with karmaGiven := s.karmaGiven + 1 } = g s)
    (c : Nat) (giver target : TgUser) (t : Nat) (st : BotState) (c' k' : Nat) :
    g (statsOf (doGrant c giver target t st) c' k') = g (statsOf st c' k') := by
  unfold doGrant
  rw [statsProj_updateStats g (fun s => { s with karmaGiven := s.karmaGiven + 1 }) h2,
    statsProj_updateStats g (fun s => { s with karma := s.karma + 1 }) h1,
    statsOf_upsertUser]
  rfl

lemma grantKarma_joins (c : Nat) (giver target : TgUser) (t : Nat) (st : BotState) :
    (grantKarma c giver target t st).fst.joins = st.joins := by
  unfold grantKarma
  split
  · rfl
  · split
    · rfl
    · split
      · split
        · rfl
        · exact doGrant_joins c giver target t st
      · exact doGrant_joins c giver target t st

lemma statsProj_grantKarma {γ : Type} (g : Stats → γ)
    (h1 : ∀ s : Stats, g { s with karma := s.karma + 1 } = g s)
    (h2 : ∀ s : Stats, g { s with karmaGiven := s.karmaGiven + 1 } = g s)
    (c : Nat) (giver target : TgUser) (t : Nat) (st : BotState) (c' k' : Nat) :
    g (statsOf (grantKarma c giver target t st).fst c' k') = g (statsOf st c' k') := by
  unfold grantKarma
  split
  · rfl
  · split
    · rfl
    · split
      · split
        · rfl
        · exact statsProj_doGrant g h1 h2 c giver target t st c' k'
      · exact statsProj_doGrant g h1 h2 c giver target t st c' k'

lemma countedState_cooldowns (ev : MsgEvent) (u : TgUser) (st : BotState) :
    (countedState ev u st).cooldowns = st.cooldowns := by
  simp only [countedState]
  split
  · rw [updateStats_cooldowns, upsertUser_cooldowns]
  · rw [upsertUser_cooldowns]

lemma countedState_joins (ev : MsgEvent) (u : TgUser) (st : BotState) :
    (countedState ev u st).joins = st.joins := by
  simp only [countedState]
  split
  · rw [updateStats_joins, upsertUser_joins]
  · rw [upsertUser_joins]

lemma statsProj_countedState {γ : Type} (g : Stats → γ)
    (hmsg : ∀ s : Stats, g { s with messages := s.messages + 1 } = g s)
    (ev : MsgEvent) (u : TgUser) (st : BotState) (c' k' : Nat) :
    g (statsOf (countedState ev u st) c' k') = g (statsOf st c' k') := by
  simp only [countedState]
  split
  · rw [statsProj_updateStats g (fun s => { s with messages := s.messages + 1 }) hmsg,
      statsOf_upsertUser]
  · rw [statsOf_upsertUser]

lemma handleJoinOne_cooldowns (c t : Nat) (tok : Option String) (st : BotState) (ju : TgUser) :
    (handleJoinOne c t tok st ju).cooldowns = st.cooldowns := by
  simp only [handleJoinOne]
  cases hinv : resolveInviter (upsertUser c ju st).inviteLinks c tok with
  | none => rw [insertJoin_cooldowns, upsertUser_cooldowns]
  | some inv =>
    rw [updateStats_cooldowns, ensureStats_cooldowns, insertJoin_cooldowns, upsertUser_cooldowns]

lemma statsProj_handleJoinOne {γ : Type} (g : Stats → γ)
    (hpend : ∀ s : Stats, g { s with invitesPending := s.invitesPending + 1 } = g s)
    (c t : Nat) (tok : Option String) (st : BotState) (ju : TgUser) (c' k' : Nat) :
    g (statsOf (handleJoinOne c t tok st ju) c' k') = g (statsOf st c' k') := by
  simp only [handleJoinOne]
  cases hinv : resolveInviter (upsertUser c ju st).inviteLinks c tok with
  | none => rw [statsOf_insertJoin, statsOf_upsertUser]
  | some inv =>
    rw [statsProj_updateStats g (fun s => { s with invitesPending := s.invitesPending + 1 }) hpend,
      statsOf_ensureStats, statsOf_insertJoin, statsOf_upsertUser]

lemma handleJoinOne_joins_mono (c t : Nat) (tok : Option String) (st : BotState) (ju : TgUser)
    (k : Nat × Nat) (r : JoinRow) (h : lookupJoin st.joins k = some r) :
    lookupJoin (handleJoinOne c t tok st ju).joins k = some r := by
  simp only [handleJoinOne]
  cases hinv : resolveInviter (upsertUser c ju st).inviteLinks c tok with
  | none => exact insertJoin_joins_mono _ _ _ _ (by rw [upsertUser_joins]; exact h)
  | some inv =>
    rw [updateStats_joins, ensureStats_joins]
    exact insertJoin_joins_mono _ _ _ _ (by rw [upsertUser_joins]; exact h)

/-! ### Unfolding lemmas for `reduce` -/

lemma reduce_join (ev : MsgEvent) (st : BotState) (h : ev.newMembers ≠ []) :
    reduce ev st = ev.newMembers.foldl (handleJoinOne ev.chatId ev.time ev.inviteLink) st := by
  unfold reduce
  rw [if_neg h]

lemma reduce_nosender (ev : MsgEvent) (st : BotState) (hnm : ev.newMembers = [])
    (hs : ev.sender = none) : reduce ev st = st := by
  unfold reduce
  rw [if_pos hnm, hs]

lemma reduce_msg (ev : MsgEvent) (u : TgUser) (st : BotState) (hnm : ev.newMembers = [])
    (hs : ev.sender = some u) (hid : u.id ≠ 0) : reduce ev st = reduceMsg ev u st := by
  unfold reduce
  rw [if_pos hnm, hs]
  exact if_neg hid

lemma reduce_id0 (ev : MsgEvent) (u : TgUser) (st : BotState) (hnm : ev.newMembers = [])
    (hs : ev.sender = some u) (hid : u.id = 0) : reduce ev st = st := by
  unfold reduce
  rw [if_pos hnm, hs]
  exact if_pos hid

/-! ### The karma engine: cooldown behaviour -/

lemma cooldownActive_elim (st : BotState) (c g t : Nat)
    (h : cooldownActiveB st c g t = true) :
    ∃ last, st.cooldowns (c, g) = some last ∧ t - last < KARMA_COOLDOWN_SECONDS := by
  unfold cooldownActiveB at h
  cases hcdo : st.cooldowns (c, g) with
  | none => rw [hcdo] at h; cases h
  | some last => rw [hcdo] at h; exact ⟨last, rfl, of_decide_eq_true h⟩

lemma grant_blocked (c t0 t' : Nat) (giver target' : TgUser) (st' : BotState)
    (ht0 : target'.id ≠ 0) (hne : target'.id ≠ giver.id)
    (hcd : st'.cooldowns (c, giver.id) = some t0)
    (hlt : t' - t0 < KARMA_COOLDOWN_SECONDS) :
    grantKarma c giver target' t' st' = (st', GrantResult.rateLimited) := by
  unfold grantKarma
  rw [if_neg ht0, if_neg hne, hcd]
  exact if_pos hlt

lemma grantKarma_eq_grant (c t : Nat) (giver target : TgUser) (st : BotState)
    (hne : target.id ≠ giver.id) (ht0 : target.id ≠ 0)
    (hcd : cooldownActiveB st c giver.id t = false) :
    grantKarma c giver target t st = (doGrant c giver target t st, GrantResult.granted) := by
  unfold grantKarma
  rw [if_neg ht0, if_neg hne]
  unfold cooldownActiveB at hcd
  cases hcdo : st.cooldowns (c, giver.id) with
  | none => rfl
  | some last =>
    rw [hcdo] at hcd
    exact if_neg (of_decide_eq_false hcd)

lemma doGrant_effects (c t : Nat) (giver target : TgUser) (st : BotState)
    (hne : target.id ≠ giver.id) (ht0 : target.id ≠ 0)
    (hrow : (st.stats (c, giver.id)).isSome = true) :
    (doGrant c giver target t st).cooldowns (c, giver.id) = some t ∧
    karmaOf (doGrant c giver target t st) c target.id = karmaOf st c target.id + 1 ∧
    karmaGivenOf (doGrant c giver target t st) c giver.id
      = karmaGivenOf st c giver.id + 1 := by
  have hkey : ((c, target.id) : Nat × Nat) ≠ (c, giver.id) := by
    intro h; exact hne (congrArg Prod.snd h)
  have hkey2 : ((c, giver.id) : Nat × Nat) ≠ (c, target.id) := by
    intro h; exact hne (congrArg Prod.snd h).symm
  obtain ⟨s, hs⟩ := Option.isSome_iff_exists.mp hrow
  refine ⟨?_, ?_, ?_⟩
  · rw [doGrant_cooldowns]; unfold upd; rw [if_pos rfl]
  · unfold doGrant karmaOf
    rw [statsOf_updateStats_ne _ _ _ _ _ hkey,
      statsOf_updateStats_self _ _ _ _ _ (upsertUser_stats_self c target _ ht0)]
    rfl
  · unfold doGrant karmaGivenOf
    have hst3 : (updateStats (upsertUser c target
        { st with cooldowns := upd st.cooldowns (c, giver.id) (some t) }) (c, target.id)
        (fun s => { s with karma := s.karma + 1 })).stats (c, giver.id) = some s := by
      rw [updateStats_stats_ne _ _ _ _ hkey2, upsertUser_stats_ne c target _ _ hkey2]
      exact hs
    rw [statsOf_updateStats_self _ _ _ _ _ hst3]
    unfold statsOf
    rw [hs]
    rfl

/-- Claim C1: for a karma grant attempt with a valid recipient distinct from the
giver — if the giver's cooldown row is active (`now - lastGrantedAt < 30` s) the
attempt returns the state unchanged, whatever the recipient; otherwise the grant
succeeds and, as one step, sets the giver's cooldown to `now`, increments the
recipient's karma and the giver's karmaGiven together, and any further attempt by
this giver strictly inside the next 30 seconds is rejected with no state change. -/
theorem karma_grant_cooldown_spec (c t : Nat) (giver target : TgUser) (st : BotState)
    (hne : target.id ≠ giver.id) (ht0 : target.id ≠ 0)
    (hrow : (st.stats (c, giver.id)).isSome = true) :
    (cooldownActiveB st c giver.id t = true →
      grantKarma c giver target t st = (st, GrantResult.rateLimited)) ∧
    (cooldownActiveB st c giver.id t = false →
      (grantKarma c giver target t st).snd = GrantResult.granted ∧
      (grantKarma c giver target t st).fst.cooldowns (c, giver.id) = some t ∧
      karmaOf (grantKarma c giver target t st).fst c target.id
        = karmaOf st c target.id + 1 ∧
      karmaGivenOf (grantKarma c giver target t st).fst c giver.id
        = karmaGivenOf st c giver.id + 1 ∧
      (∀ (t' : Nat) (target' : TgUser), target'.id ≠ 0 → target'.id ≠ giver.id →
        t' < t + KARMA_COOLDOWN_SECONDS →
        grantKarma c giver target' t' (grantKarma c giver target t st).fst
          = ((grantKarma c giver target t st).fst, GrantResult.rateLimited))) := by
  constructor
  · intro hact
    obtain ⟨last, hcdo, hlt⟩ := cooldownActive_elim st c giver.id t hact
    exact grant_blocked c last t giver target st ht0 hne hcdo hlt
  · intro hinact
    have hg := grantKarma_eq_grant c t giver target st hne ht0 hinact
    obtain ⟨h1, h2, h3⟩ := doGrant_effects c t giver target st hne ht0 hrow
    refine ⟨by rw [hg], by rw [hg]; exact h1, by rw [hg]; exact h2, by rw [hg]; exact h3, ?_⟩
    intro t' target' ht0' hne' hlt'
    rw [hg]
    exact grant_blocked c t t' giver target' _ ht0' hne' h1
      (by simp only [KARMA_COOLDOWN_SECONDS] at hlt' ⊢; omega)

/-- Witness for C1 at a concrete input: user 7 (with a stats row) grants to user 9
at time 100 on `stW`; no cooldown is active, so the grant succeeds and bumps both
counters in one step. -/
theorem karma_grant_cooldown_spec_witness :
    (grantKarma 1 u7 u9 100 stW).snd = GrantResult.granted ∧
    karmaOf (grantKarma 1 u7 u9 100 stW).fst 1 9 = karmaOf stW 1 9 + 1 ∧
    karmaGivenOf (grantKarma 1 u7 u9 100 stW).fst 1 7 = karmaGivenOf stW 1 7 + 1 := by
  have h := karma_grant_cooldown_spec 1 100 u7 u9 stW (by decide) (by decide) (by decide)
  have h2 := h.2 (by decide)
  exact ⟨h2.1, h2.2.2.1, h2.2.2.2.1⟩

/-! ### Claim C7: self-grant is a silent no-op for the karma machinery -/

/-- Claim C7: when a user replies "+" to their own message, the karma grant is a
silent no-op — no cooldown row, no karma value and no karmaGiven value changes for
any user in any chat. -/
theorem self_grant_noop (ev : MsgEvent) (u target : TgUser) (st : BotState)
    (hnm : ev.newMembers = []) (hs : ev.sender = some u) (hid : u.id ≠ 0)
    (hrep : ev.replyToUser = some target) (hself : target.id = u.id)
    (htr : truthyStr ev.text = true) (hplus : textOf ev = "+") :
    (∀ c k, (reduce ev st).cooldowns (c, k) = st.cooldowns (c, k)) ∧
    (∀ c k, karmaOf (reduce ev st) c k = karmaOf st c k) ∧
    (∀ c k, karmaGivenOf (reduce ev st) c k = karmaGivenOf st c k) := by
  rw [reduce_msg ev u st hnm hs hid]
  unfold reduceMsg
  rw [hrep]
  have hres : grantKarma ev.chatId u target ev.time (countedState ev u st)
      = (countedState ev u st, GrantResult.selfGrant) := by
    unfold grantKarma
    rw [if_neg (show ¬target.id = 0 by rw [hself]; exact hid), if_pos hself]
  have hcond : (truthyStr ev.text && (textOf ev == "+")) = true := by
    rw [htr, hplus]; rfl
  rw [hcond]
  simp only [if_true, hres]
  rw [if_neg (show ¬GrantResult.selfGrant = GrantResult.granted by decide)]
  refine ⟨fun c k => ?_, fun c k => ?_, fun c k => ?_⟩
  · rw [countedState_cooldowns]
  · exact statsProj_countedState Stats.karma (fun s => rfl) ev u st c k
  · exact statsProj_countedState Stats.karmaGiven (fun s => rfl) ev u st c k

/-- Witness for C7: user 7 replies "+" to their own message on `stPend`; karma,
karmaGiven and the cooldown table stay untouched. -/
theorem self_grant_noop_witness :
    (reduce evSelf stPend).cooldowns (1, 7) = stPend.cooldowns (1, 7) ∧
    karmaOf (reduce evSelf stPend) 1 7 = karmaOf stPend 1 7 := by
  have h := self_grant_noop evSelf u7 u7 stPend rfl rfl (by decide) rfl rfl (by decide)
    (by decide)
  exact ⟨h.1 1 7, h.2.1 1 7⟩

/-! ### Claim C10: re-observing a user never touches their counters -/

/-- Claim C10: for a user who already has a stats row, `upsertUser` leaves the whole
stats table unchanged (its insert is a no-op on conflict), rewrites only that user's
identity row, and touches nothing else. -/
theorem upsert_user_frame (c : Nat) (u : TgUser) (st : BotState) (hid : u.id ≠ 0)
    (hrow : (st.stats (c, u.id)).isSome = true) :
    (∀ k, (upsertUser c u st).stats k = st.stats k) ∧
    (upsertUser c u st).users (c, u.id) = some ⟨normStr u.username, normStr u.firstName⟩ ∧
    (∀ k, k ≠ (c, u.id) → (upsertUser c u st).users k = st.users k) ∧
    (upsertUser c u st).cooldowns = st.cooldowns ∧
    (upsertUser c u st).joins = st.joins ∧
    (upsertUser c u st).inviteLinks = st.inviteLinks := by
  obtain ⟨s, hs⟩ := Option.isSome_iff_exists.mp hrow
  refine ⟨fun k => ?_, ?_, fun k hk => ?_, upsertUser_cooldowns c u st,
    upsertUser_joins c u st, upsertUser_links c u st⟩
  · by_cases hk : k = (c, u.id)
    · subst hk
      rw [upsertUser_stats_self c u st hid, hs]
      rfl
    · exact upsertUser_stats_ne c u st k hk
  · unfold upsertUser
    rw [if_neg hid]
    dsimp only
    unfold upd
    rw [if_pos rfl]
  · unfold upsertUser
    rw [if_neg hid]
    dsimp only
    unfold upd
    rw [if_neg hk]

/-- Witness for C10: user 7 already has a stats row in `stW`; re-upserting them
leaves the row as it was and writes the identity row. -/
theorem upsert_user_frame_witness :
    (upsertUser 1 u7 stW).stats (1, 7) = stW.stats (1, 7) ∧
    (upsertUser 1 u7 stW).users (1, 7) = some ⟨none, none⟩ := by
  have h := upsert_user_frame 1 u7 stW (by decide) (by decide)
  exact ⟨h.1 (1, 7), h.2.1⟩

/-! ### Claim C9: the invite-link registry is create-once, reuse-forever -/

/-- Claim C9: once `getOrCreateInviteLink` has returned a token for `(chatId,
inviterId)`, a second call returns the identical token without invoking the external
creator and without changing the registry; every stored token of every key survives
the call, and the one-row-per-key bound is preserved. -/
theorem invite_link_stable (c i : Nat) (f1 f2 : String) (st : List LinkRow)
    (hf : f1 ≠ "") (t1 : String) (st1 : List LinkRow) (b1 : Bool)
    (h1 : getOrCreateInviteLink c i f1 st = some (t1, st1, b1)) :
    getOrCreateInviteLink c i f2 st1 = some (t1, st1, false) ∧
    (∀ c' i' tok, lookupLink st c' i' = some tok → lookupLink st1 c' i' = some tok) ∧
    ((∀ c' i', linkRowCount st c' i' ≤ 1) → ∀ c' i', linkRowCount st1 c' i' ≤ 1) := by
  unfold getOrCreateInviteLink at h1
  cases hfind : st.find? (fun r => decide (r.chatId = c ∧ r.inviterId = i)) with
  | some row =>
    rw [hfind] at h1
    dsimp only at h1
    by_cases he : (row.token == "") = true
    · rw [if_pos he] at h1
      cases h1
    · rw [if_neg he] at h1
      have h1' := Option.some.inj h1
      obtain ⟨e1, e2, e3⟩ : row.token = t1 ∧ st = st1 ∧ false = b1 := by
        refine ⟨congrArg Prod.fst h1', ?_, ?_⟩
        · exact congrArg (fun x => x.snd.fst) h1'
        · exact congrArg (fun x => x.snd.snd) h1'
      subst e1
      subst e2
      refine ⟨?_, fun c' i' tok h => h, fun h c' i' => h c' i'⟩
      unfold getOrCreateInviteLink
      rw [hfind]
      dsimp only
      rw [if_neg he]
  | none =>
    rw [hfind] at h1
    dsimp only at h1
    have h1' := Option.some.inj h1
    obtain ⟨e1, e2, e3⟩ : f1 = t1 ∧ st ++ [⟨c, i, f1⟩] = st1 ∧ true = b1 := by
      refine ⟨congrArg Prod.fst h1', ?_, ?_⟩
      · exact congrArg (fun x => x.snd.fst) h1'
      · exact congrArg (fun x => x.snd.snd) h1'
    subst e1
    subst e2
    refine ⟨?_, ?_, ?_⟩
    · unfold getOrCreateInviteLink
      rw [findAppendNone _ _ _ hfind]
      have : List.find? (fun r => decide (r.chatId = c ∧ r.inviterId = i))
          [(⟨c, i, f1⟩ : LinkRow)] = some ⟨c, i, f1⟩ :=
        List.find?_cons_of_pos _ (decide_eq_true ⟨rfl, rfl⟩)
      rw [this]
      dsimp only
      rw [if_neg (show ¬((f1 : String) == "") = true by simp [hf])]
    · intro c' i' tok h
      unfold lookupLink at h ⊢
      obtain ⟨r, hr, hrt⟩ := Option.map_eq_some'.mp h
      rw [findAppendSome _ _ _ _ hr]
      rw [← hrt]
      rfl
    · intro h c' i'
      unfold linkRowCount
      rw [List.filter_append]
      by_cases hk : c' = c ∧ i' = i
      · obtain ⟨hk1, hk2⟩ := hk
        subst hk1
        subst hk2
        have hnil : st.filter (fun r => decide (r.chatId = c' ∧ r.inviterId = i')) = [] :=
          List.filter_eq_nil_iff.mpr (fun a ha hpa =>
            (List.find?_eq_none.mp hfind a ha) hpa)
        rw [hnil]
        simp
      · have : (List.filter (fun r => decide (r.chatId = c' ∧ r.inviterId = i'))
            [(⟨c, i, f1⟩ : LinkRow)]) = [] := by
          simp only [List.filter, decide_eq_true_eq]
          have : ¬((⟨c, i, f1⟩ : LinkRow).chatId = c' ∧ (⟨c, i, f1⟩ : LinkRow).inviterId = i') := by
            intro hc
            exact hk ⟨hc.1.symm, hc.2.symm⟩
          simp [this]
        rw [this, List.length_append]
        have := h c' i'
        unfold linkRowCount at this
        simp only [List.length_nil]
        omega

/-- Witness for C9: with the registry holding exactly the row created by a first
call on the empty registry, a second call with a different fresh token returns the
original token, does not create, and leaves the registry unchanged. -/
theorem invite_link_stable_witness :
    getOrCreateInviteLink 1 2 "tokB" [⟨1, 2, "tokA"⟩]
      = some ("tokA", [⟨1, 2, "tokA"⟩], false) := by
  have h := invite_link_stable 1 2 "tokA" "tokB" [] (by decide) "tokA"
    [⟨1, 2, "tokA"⟩] true (by decide)
  exact h.1

/-! ### Claim C5: what triggers the karma engine -/

lemma sweep_counted_karma_frame (ev : MsgEvent) (u : TgUser) (st : BotState) (c k : Nat) :
    (confirmSweep ev.chatId ev.time (countedState ev u st)).cooldowns (c, k)
      = st.cooldowns (c, k) ∧
    karmaOf (confirmSweep ev.chatId ev.time (countedState ev u st)) c k = karmaOf st c k ∧
    karmaGivenOf (confirmSweep ev.chatId ev.time (countedState ev u st)) c k
      = karmaGivenOf st c k := by
  refine ⟨?_, ?_, ?_⟩
  · rw [cooldowns_confirmSweep, countedState_cooldowns]
  · exact (statsProj_confirmSweep Stats.karma (fun s => rfl) ev.chatId ev.time
      (countedState ev u st) c k).trans
      (statsProj_countedState Stats.karma (fun s => rfl) ev u st c k)
  · exact (statsProj_confirmSweep Stats.karmaGiven (fun s => rfl) ev.chatId ev.time
      (countedState ev u st) c k).trans
      (statsProj_countedState Stats.karmaGiven (fun s => rfl) ev u st c k)

/-- Counterexample to C5 as stated: the claim says the karma engine fires only when
the raw text is exactly "+", and that for any other text no grant is attempted; but
on a reply whose text is " +" (leading space) the code trims and grants, creating a
cooldown row and karma.  The formalized claim (trigger iff raw text is exactly "+",
otherwise karma state untouched) is therefore false. -/
theorem karma_trigger_exact_plus_cex :
    ¬ ((∀ (ev : MsgEvent) (u target : TgUser) (st : BotState), ev.newMembers = [] →
          ev.sender = some u → u.id ≠ 0 → ev.text = some "+" →
          ev.replyToUser = some target →
          reduce ev st =
            (if (grantKarma ev.chatId u target ev.time (countedState ev u st)).snd
                = GrantResult.granted then
              confirmSweep ev.chatId ev.time
                (grantKarma ev.chatId u target ev.time (countedState ev u st)).fst
            else (grantKarma ev.chatId u target ev.time (countedState ev u st)).fst)) ∧
        (∀ (ev : MsgEvent) (u : TgUser) (st : BotState), ev.newMembers = [] →
          ev.sender = some u → u.id ≠ 0 →
          (ev.text ≠ some "+" ∨ ev.replyToUser = none) →
          ∀ c k, (reduce ev st).cooldowns (c, k) = st.cooldowns (c, k) ∧
            karmaOf (reduce ev st) c k = karmaOf st c k ∧
            karmaGivenOf (reduce ev st) c k = karmaGivenOf st c k)) := by
  intro h
  have := (h.2 evSpacePlus u7 emptyState rfl rfl (by decide)
    (Or.inl (by decide)) 1 7).1
  exact absurd this (by decide)

/-- Claim C5 (amended): the karma engine is invoked exactly when the raw text is
truthy, the TRIMMED text equals "+", and a replyToUser exists — so texts with
surrounding whitespace around "+" do trigger it; in every other case no grant is
attempted and cooldowns, karma and karmaGiven are untouched for every user. -/
theorem karma_trigger_trimmed_plus (ev : MsgEvent) (u : TgUser) (st : BotState)
    (hnm : ev.newMembers = []) (hs : ev.sender = some u) (hid : u.id ≠ 0) :
    (∀ target, ev.replyToUser = some target → truthyStr ev.text = true →
      textOf ev = "+" →
      reduce ev st =
        (if (grantKarma ev.chatId u target ev.time (countedState ev u st)).snd
            = GrantResult.granted then
          confirmSweep ev.chatId ev.time
            (grantKarma ev.chatId u target ev.time (countedState ev u st)).fst
        else (grantKarma ev.chatId u target ev.time (countedState ev u st)).fst)) ∧
    (¬ (truthyStr ev.text = true ∧ textOf ev = "+" ∧ ev.replyToUser.isSome = true) →
      ∀ c k, (reduce ev st).cooldowns (c, k) = st.cooldowns (c, k) ∧
        karmaOf (reduce ev st) c k = karmaOf st c k ∧
        karmaGivenOf (reduce ev st) c k = karmaGivenOf st c k) := by
  rw [reduce_msg ev u st hnm hs hid]
  constructor
  · intro target hrep htr hplus
    unfold reduceMsg
    rw [hrep]
    have hcond : (truthyStr ev.text && (textOf ev == "+")) = true := by
      rw [htr, hplus]; rfl
    rw [hcond]
    rfl
  · intro hnot
    unfold reduceMsg
    cases hrep : ev.replyToUser with
    | none => exact fun c k => sweep_counted_karma_frame ev u st c k
    | some target =>
      dsimp only
      by_cases hcond : (truthyStr ev.text && (textOf ev == "+")) = true
      · exfalso
        apply hnot
        have hparts := hcond
        rw [Bool.and_eq_true] at hparts
        exact ⟨hparts.1, eq_of_beq hparts.2, by rw [hrep]; rfl⟩
      · rw [Bool.not_eq_true] at hcond
        rw [hcond, if_neg Bool.false_ne_true]
        exact fun c k => sweep_counted_karma_frame ev u st c k

/-- Witness for amended C5: the whitespace-padded " +" reply from user 7 to user 9
dispatches to the karma engine. -/
theorem karma_trigger_trimmed_plus_witness :
    reduce evSpacePlus emptyState =
      (if (grantKarma 1 u7 u9 40 (countedState evSpacePlus u7 emptyState)).snd
          = GrantResult.granted then
        confirmSweep 1 40
          (grantKarma 1 u7 u9 40 (countedState evSpacePlus u7 emptyState)).fst
      else (grantKarma 1 u7 u9 40 (countedState evSpacePlus u7 emptyState)).fst) := by
  have h := karma_trigger_trimmed_plus evSpacePlus u7 emptyState rfl rfl (by decide)
  exact h.1 u9 rfl (by decide) (by decide)

/-! ### Claim C6: the message counter -/

lemma messagesOf_countedState (ev : MsgEvent) (u : TgUser) (st : BotState) (c uid : Nat)
    (hid : u.id ≠ 0) :
    messagesOf (countedState ev u st) c uid
      = messagesOf st c uid +
        (if ev.chatId = c ∧ u.id = uid ∧
            (truthyStr ev.text && !startsWithSlash (textOf ev)) = true
         then 1 else 0) := by
  simp only [countedState]
  by_cases hb : (truthyStr ev.text && !startsWithSlash (textOf ev)) = true
  · rw [if_pos hb]
    by_cases hk : ((c, uid) : Nat × Nat) = (ev.chatId, u.id)
    · obtain ⟨hc, hu⟩ : c = ev.chatId ∧ uid = u.id :=
        ⟨congrArg Prod.fst hk, congrArg Prod.snd hk⟩
      subst hc
      subst hu
      unfold messagesOf
      rw [statsOf_updateStats_self _ _ _ _ _ (upsertUser_stats_self ev.chatId u st hid)]
      rw [if_pos ⟨rfl, rfl, hb⟩]
      rfl
    · rw [if_neg (show ¬(ev.chatId = c ∧ u.id = uid ∧
          (truthyStr ev.text && !startsWithSlash (textOf ev)) = true) from
          fun hx => hk (by rw [hx.1, hx.2.1]))]
      unfold messagesOf
      rw [statsOf_updateStats_ne _ _ _ _ _ hk, statsOf_upsertUser]
      exact (add_zero _).symm
  · rw [if_neg hb, if_neg (fun hx => hb hx.2.2)]
    unfold messagesOf
    rw [statsOf_upsertUser]
    exact (add_zero _).symm

lemma messagesOf_reduce (ev : MsgEvent) (st : BotState) (c uid : Nat) (h : uid ≠ 0) :
    messagesOf (reduce ev st) c uid
      = messagesOf st c uid + (if countsMsg c uid ev = true then 1 else 0) := by
  by_cases hnm : ev.newMembers = []
  · have hempty : ev.newMembers.isEmpty = true := by rw [hnm]; rfl
    cases hsend : ev.sender with
    | none =>
      rw [reduce_nosender ev st hnm hsend]
      have hc : countsMsg c uid ev = false := by
        unfold countsMsg
        rw [hsend]
        simp
      rw [hc]
      simp
    | some u =>
      by_cases hid : u.id = 0
      · rw [reduce_id0 ev u st hnm hsend hid]
        have hdu : decide (u.id = uid) = false :=
          decide_eq_false (by rw [hid]; exact fun hh => h hh.symm)
        have hc : countsMsg c uid ev = false := by
          unfold countsMsg
          rw [hsend]
          dsimp only
          rw [hdu]
          simp
        rw [hc]
        simp
      · rw [reduce_msg ev u st hnm hsend hid]
        have hmsg_rm : messagesOf (reduceMsg ev u st) c uid
            = messagesOf (countedState ev u st) c uid := by
          unfold reduceMsg
          cases hrep : ev.replyToUser with
          | none =>
            exact statsProj_confirmSweep Stats.messages (fun s => rfl) _ _ _ c uid
          | some target =>
            dsimp only
            by_cases hcond : (truthyStr ev.text && (textOf ev == "+")) = true
            · rw [hcond, if_pos rfl]
              split
              · exact (statsProj_confirmSweep Stats.messages (fun s => rfl) _ _ _ c uid).trans
                  (statsProj_grantKarma Stats.messages (fun s => rfl) (fun s => rfl)
                    _ _ _ _ _ c uid)
              · exact statsProj_grantKarma Stats.messages (fun s => rfl) (fun s => rfl)
                  _ _ _ _ _ c uid
            · rw [Bool.not_eq_true] at hcond
              rw [hcond, if_neg Bool.false_ne_true]
              exact statsProj_confirmSweep Stats.messages (fun s => rfl) _ _ _ c uid
        rw [hmsg_rm, messagesOf_countedState ev u st c uid hid]
        congr 1
        by_cases hx : ev.chatId = c ∧ u.id = uid ∧
            (truthyStr ev.text && !startsWithSlash (textOf ev)) = true
        · rw [if_pos hx, if_pos]
          unfold countsMsg
          rw [hsend]
          dsimp only
          obtain ⟨hts, hss⟩ : truthyStr ev.text = true ∧
              (!startsWithSlash (textOf ev)) = true := by
            have hx22 := hx.2.2
            rw [Bool.and_eq_true] at hx22
            exact hx22
          rw [hempty, decide_eq_true hx.1, decide_eq_true hx.2.1, hts, hss]
          rfl
        · rw [if_neg hx, if_neg]
          intro hcm
          apply hx
          unfold countsMsg at hcm
          rw [hsend] at hcm
          dsimp only at hcm
          simp only [Bool.and_eq_true, decide_eq_true_eq] at hcm
          exact ⟨hcm.1.1.1.1, hcm.1.1.2, by
            rw [Bool.and_eq_true]
            exact ⟨hcm.1.2, hcm.2⟩⟩
  · have hempty : ev.newMembers.isEmpty = false := by
      cases hh : ev.newMembers with
      | nil => exact absurd hh hnm
      | cons a l => rfl
    rw [reduce_join ev st hnm]
    have hfold : messagesOf
        (ev.newMembers.foldl (handleJoinOne ev.chatId ev.time ev.inviteLink) st) c uid
        = messagesOf st c uid :=
      foldl_fix _ (fun b => messagesOf b c uid)
        (fun b a => statsProj_handleJoinOne Stats.messages (fun s => rfl)
          ev.chatId ev.time ev.inviteLink b a c uid) _ st
    rw [hfold]
    have hc : countsMsg c uid ev = false := by
      unfold countsMsg
      rw [hempty]
      simp
    rw [hc]
    simp

/-- Counterexample to C6 as stated: counting the events whose RAW text is non-empty
and does not start with "/" does not match the code — the message "  /x" has a raw
text that does not start with "/", so the claim counts it, but the code trims first
and skips it as a command. -/
theorem message_counter_raw_cex :
    ¬ (∀ (evs : List MsgEvent) (st : BotState) (c uid : Nat), uid ≠ 0 →
        messagesOf (reduceAll evs st) c uid
          = messagesOf st c uid + ((evs.filter (countsMsgRaw c uid)).length : Int)) := by
  intro h
  have := h [evWsCmd] emptyState 1 7 (by decide)
  exact absurd this (by decide)

/-- Claim C6 (amended): over any event sequence and for any user and chat, the
message counter equals its initial value plus the number of that user's non-join
events in that chat whose RAW text is truthy and whose TRIMMED text does not start
with "/"; all other events — commands after trimming, empty texts, joins, other
users' traffic — leave the counter unchanged. -/
theorem message_counter_trimmed (evs : List MsgEvent) (st : BotState) (c uid : Nat)
    (h : uid ≠ 0) :
    messagesOf (reduceAll evs st) c uid
      = messagesOf st c uid + ((evs.filter (countsMsg c uid)).length : Int) := by
  induction evs generalizing st with
  | nil => simp [reduceAll]
  | cons e es ih =>
    have hstep : reduceAll (e :: es) st = reduceAll es (reduce e st) := rfl
    rw [hstep, ih (reduce e st), messagesOf_reduce e st c uid h]
    by_cases hc : countsMsg c uid e = true
    · rw [List.filter_cons_of_pos hc, if_pos hc]
      simp only [List.length_cons]
      push_cast
      ring
    · rw [List.filter_cons_of_neg hc, if_neg hc]
      ring

/-- Witness for amended C6: over the two-event stream ["  /x" then " +"] user 7's
counter in chat 1 advances by exactly the number of counted events. -/
theorem message_counter_trimmed_witness :
    messagesOf (reduceAll [evWsCmd, evSpacePlus] emptyState) 1 7
      = messagesOf emptyState 1 7
        + (([evWsCmd, evSpacePlus].filter (countsMsg 1 7)).length : Int) :=
  message_counter_trimmed [evWsCmd, evSpacePlus] emptyState 1 7 (by decide)

/-! ### Claim C3: does the sweep ride on every non-join message? -/

/-- Counterexample to C3 as stated: on a self-grant "+" reply the handler `return`s
before the confirmation sweep, so the reducer is NOT equivalent to running the sweep
after the per-message work — `evSelf` on `stPend` leaves the eligible candidate
pending, while a sweep after the same per-message work would confirm it. -/
theorem sweep_every_message_cex :
    ¬ (∀ (ev : MsgEvent) (u : TgUser) (st : BotState), ev.newMembers = [] →
        ev.sender = some u → u.id ≠ 0 →
        reduce ev st = confirmSweep ev.chatId ev.time (preSweep ev u st)) := by
  intro h
  have heq := h evSelf u7 stPend rfl rfl (by decide)
  have h2 := congrArg (fun s => lookupJoin s.joins (1, 5)) heq
  exact absurd h2 (by decide)

/-- Claim C3 (amended): for a non-join message event the reducer equals the
per-message work followed by the confirmation sweep, EXCEPT when the event is a
"+"-reply whose grant the karma engine rejects (bad target id, self-grant, or
cooldown) — in those cases the handler returns early and no sweep runs. -/
theorem sweep_unless_grant_rejected (ev : MsgEvent) (u : TgUser) (st : BotState)
    (hnm : ev.newMembers = []) (hs : ev.sender = some u) (hid : u.id ≠ 0) :
    reduce ev st = (if grantRejected ev u st = true then preSweep ev u st
      else confirmSweep ev.chatId ev.time (preSweep ev u st)) := by
  rw [reduce_msg ev u st hnm hs hid]
  unfold reduceMsg preSweep grantRejected
  cases hrep : ev.replyToUser with
  | none =>
    dsimp only
    rw [if_neg Bool.false_ne_true]
  | some target =>
    dsimp only
    by_cases hcond : (truthyStr ev.text && (textOf ev == "+")) = true
    · rw [hcond, if_pos rfl, if_pos rfl]
      by_cases hgr : (grantKarma ev.chatId u target ev.time (countedState ev u st)).snd
          = GrantResult.granted
      · rw [if_pos hgr]
        have hrej : (true && !((grantKarma ev.chatId u target ev.time
            (countedState ev u st)).snd == GrantResult.granted)) = false := by
          rw [beq_iff_eq.mpr hgr]
          rfl
        rw [hrej, if_neg Bool.false_ne_true]
      · rw [if_neg hgr]
        have hrej : (true && !((grantKarma ev.chatId u target ev.time
            (countedState ev u st)).snd == GrantResult.granted)) = true := by
          have : ((grantKarma ev.chatId u target ev.time
              (countedState ev u st)).snd == GrantResult.granted) = false := by
            rw [beq_eq_false_iff_ne]
            exact hgr
          rw [this]
          rfl
        rw [hrej, if_pos rfl]
    · rw [Bool.not_eq_true] at hcond
      rw [hcond, if_neg Bool.false_ne_true, if_neg Bool.false_ne_true, Bool.false_and,
        if_neg Bool.false_ne_true]

/-- Witness for amended C3: the self-grant event on the pending-candidate state is
exactly the rejected case, and the reducer equals the no-sweep branch there. -/
theorem sweep_unless_grant_rejected_witness :
    reduce evSelf stPend = (if grantRejected evSelf u7 stPend = true
      then preSweep evSelf u7 stPend
      else confirmSweep 1 100000 (preSweep evSelf u7 stPend)) :=
  sweep_unless_grant_rejected evSelf u7 stPend rfl rfl (by decide)

/-! ### Claim C4: idempotence of join recording -/

/-- Counterexample to C4 as stated: a duplicate join notification that carries the
inviter's link leaves the `InviteJoin` row alone, but still increments the
resolved inviter's `invitesPending` — so "changes no state / no inviter's counters
change" is false: on `stTracked` the duplicate join of user 2 bumps user 3's
pending count. -/
theorem join_idempotent_cex :
    ¬ (∀ (ev : MsgEvent) (ju : TgUser) (st : BotState), ev.newMembers = [ju] →
        (lookupJoin st.joins (ev.chatId, ju.id)).isSome = true →
        (reduce ev st).joins = st.joins ∧
        (∀ c k, statsOf (reduce ev st) c k = statsOf st c k)) := by
  intro h
  have := (h evDupJoin u2 stTracked rfl (by decide)).2 1 3
  exact absurd this (by decide)

/-- Claim C4 (amended): a second join notification for an already-tracked user never
overwrites or duplicates the `InviteJoin` row (first join wins); but the inviter
counter update is unconditional — if the duplicate event's link resolves to an
inviter, that inviter's `invitesPending` is incremented again, all other stats rows
being untouched; if no inviter resolves, no stats row changes at all. -/
theorem join_row_idempotent (ev : MsgEvent) (ju : TgUser) (st : BotState)
    (hnm : ev.newMembers = [ju])
    (htr : (lookupJoin st.joins (ev.chatId, ju.id)).isSome = true) :
    (reduce ev st).joins = st.joins ∧
    (match resolveInviter st.inviteLinks ev.chatId ev.inviteLink with
     | some inv =>
        (∀ c k, ((c, k) : Nat × Nat) ≠ (ev.chatId, inv) →
          statsOf (reduce ev st) c k = statsOf st c k) ∧
        statsOf (reduce ev st) ev.chatId inv
          = { statsOf st ev.chatId inv with
              invitesPending := (statsOf st ev.chatId inv).invitesPending + 1 }
     | none => ∀ c k, statsOf (reduce ev st) c k = statsOf st c k) := by
  have hne : ev.newMembers ≠ [] := by rw [hnm]; exact List.cons_ne_nil ju []
  rw [reduce_join ev st hne, hnm]
  have hfold : [ju].foldl (handleJoinOne ev.chatId ev.time ev.inviteLink) st
      = handleJoinOne ev.chatId ev.time ev.inviteLink st ju := rfl
  rw [hfold]
  simp only [handleJoinOne]
  rw [upsertUser_links]
  have hins : insertJoin (upsertUser ev.chatId ju st)
      ⟨ev.chatId, ju.id, resolveInviter st.inviteLinks ev.chatId ev.inviteLink,
        ev.time, false⟩ = upsertUser ev.chatId ju st := by
    apply insertJoin_of_present
    rw [upsertUser_joins]
    exact htr
  rw [hins]
  cases hinv : resolveInviter st.inviteLinks ev.chatId ev.inviteLink with
  | none =>
    exact ⟨upsertUser_joins ev.chatId ju st, fun c k => statsOf_upsertUser ev.chatId ju st c k⟩
  | some inv =>
    refine ⟨?_, fun c k hk => ?_, ?_⟩
    · rw [updateStats_joins, ensureStats_joins, upsertUser_joins]
    · rw [statsOf_updateStats_ne _ _ _ _ _ hk, statsOf_ensureStats, statsOf_upsertUser]
    · rw [statsOf_updateStats_self _ _ _ _
        ((statsOf (upsertUser ev.chatId ju st) ev.chatId inv))
        (ensureStats_stats_eq (upsertUser ev.chatId ju st) (ev.chatId, inv))]
      have hsu : statsOf (upsertUser ev.chatId ju st) ev.chatId inv
          = statsOf st ev.chatId inv := statsOf_upsertUser ev.chatId ju st ev.chatId inv
      rw [hsu]

/-- Witness for amended C4: the duplicate join of user 2 via link "T" on `stTracked`
leaves the joins table unchanged and bumps inviter 3's pending count by one. -/
theorem join_row_idempotent_witness :
    (reduce evDupJoin stTracked).joins = stTracked.joins ∧
    statsOf (reduce evDupJoin stTracked) 1 3
      = { statsOf stTracked 1 3 with
          invitesPending := (statsOf stTracked 1 3).invitesPending + 1 } := by
  have h := join_row_idempotent evDupJoin u2 stTracked rfl (by decide)
  refine ⟨h.1, ?_⟩
  have h2 := h.2
  rw [show resolveInviter stTracked.inviteLinks evDupJoin.chatId evDupJoin.inviteLink
    = some 3 from by decide] at h2
  exact h2.2

/-! ### Claim C8: invite counters are monotone and never negative -/

lemma C8ok_refl (st : BotState) : C8ok st st :=
  fun _ _ => ⟨id, le_refl _⟩

lemma C8ok_trans {a b c : BotState} (h1 : C8ok a b) (h2 : C8ok b c) : C8ok a c :=
  fun ck k => ⟨fun h => (h2 ck k).1 ((h1 ck k).1 h), le_trans (h1 ck k).2 (h2 ck k).2⟩

lemma C8ok_of_eq {st st' : BotState}
    (h : ∀ c k, pendingOf st' c k = pendingOf st c k ∧
      confirmedInvOf st' c k = confirmedInvOf st c k) : C8ok st st' :=
  fun c k => ⟨by rw [(h c k).1]; exact id, by rw [(h c k).1, (h c k).2]⟩

lemma statsOf_updateStats_cases (st : BotState) (k : Nat × Nat) (f : Stats → Stats)
    (c k2 : Nat) :
    statsOf (updateStats st k f) c k2 = statsOf st c k2 ∨
    statsOf (updateStats st k f) c k2 = f (statsOf st c k2) := by
  unfold updateStats statsOf
  dsimp only
  split
  · cases st.stats (c, k2) with
    | none => exact Or.inl rfl
    | some s => exact Or.inr rfl
  · exact Or.inl rfl

lemma C8ok_updatePending (st : BotState) (k : Nat × Nat) :
    C8ok st (updateStats st k
      (fun s => { s with invitesPending := s.invitesPending + 1 })) := by
  intro c k2
  rcases statsOf_updateStats_cases st k
    (fun s => { s with invitesPending := s.invitesPending + 1 }) c k2 with he | he
  · unfold pendingOf confirmedInvOf
    rw [he]
    exact ⟨id, le_refl _⟩
  · unfold pendingOf confirmedInvOf
    rw [he]
    exact ⟨fun h => by dsimp only; omega, by dsimp only; omega⟩

lemma C8ok_sweepUpdate (st : BotState) (k : Nat × Nat) :
    C8ok st (updateStats st k (fun s =>
      { s with
        invitesPending := if s.invitesPending > 0 then s.invitesPending - 1 else 0,
        invitesConfirmed := s.invitesConfirmed + 1 })) := by
  intro c k2
  rcases statsOf_updateStats_cases st k (fun s =>
    { s with
      invitesPending := if s.invitesPending > 0 then s.invitesPending - 1 else 0,
      invitesConfirmed := s.invitesConfirmed + 1 }) c k2 with he | he
  · unfold pendingOf confirmedInvOf
    rw [he]
    exact ⟨id, le_refl _⟩
  · unfold pendingOf confirmedInvOf
    rw [he]
    refine ⟨fun h => ?_, ?_⟩
    · dsimp only
      split <;> omega
    · dsimp only
      split <;> omega

lemma C8ok_sweepStep (c t : Nat) (st : BotState) (cand : JoinRow) :
    C8ok st (sweepStep c t st cand) := by
  unfold sweepStep
  split
  · exact C8ok_refl st
  · split
    · exact C8ok_refl st
    · cases hinv : cand.inviterId with
      | none => exact C8ok_of_eq (fun c' k' => ⟨rfl, rfl⟩)
      | some inv =>
        exact C8ok_trans (C8ok_of_eq (fun c' k' => ⟨rfl, rfl⟩)) (C8ok_sweepUpdate _ _)

lemma C8ok_foldl {α : Type} (f : BotState → α → BotState)
    (h : ∀ b a, C8ok b (f b a)) (l : List α) (b : BotState) :
    C8ok b (l.foldl f b) := by
  induction l generalizing b with
  | nil => exact C8ok_refl b
  | cons x xs ih => exact C8ok_trans (h b x) (ih (f b x))

lemma C8ok_confirmSweep (c t : Nat) (st : BotState) : C8ok st (confirmSweep c t st) :=
  C8ok_foldl _ (fun b a => C8ok_sweepStep c t b a) _ st

lemma C8ok_handleJoinOne (c t : Nat) (tok : Option String) (st : BotState) (ju : TgUser) :
    C8ok st (handleJoinOne c t tok st ju) := by
  simp only [handleJoinOne]
  cases hinv : resolveInviter (upsertUser c ju st).inviteLinks c tok with
  | none =>
    apply C8ok_of_eq
    intro c' k'
    constructor
    · unfold pendingOf
      rw [statsOf_insertJoin, statsOf_upsertUser]
    · unfold confirmedInvOf
      rw [statsOf_insertJoin, statsOf_upsertUser]
  | some inv =>
    have h1 : C8ok st (ensureStats (insertJoin (upsertUser c ju st)
        ⟨c, ju.id, some inv, t, false⟩) (c, inv)) := by
      apply C8ok_of_eq
      intro c' k'
      constructor
      · unfold pendingOf
        rw [statsOf_ensureStats, statsOf_insertJoin, statsOf_upsertUser]
      · unfold confirmedInvOf
        rw [statsOf_ensureStats, statsOf_insertJoin, statsOf_upsertUser]
    exact C8ok_trans h1 (C8ok_updatePending _ _)

lemma C8ok_countedState (ev : MsgEvent) (u : TgUser) (st : BotState) :
    C8ok st (countedState ev u st) := by
  apply C8ok_of_eq
  intro c' k'
  exact ⟨statsProj_countedState Stats.invitesPending (fun s => rfl) ev u st c' k',
    statsProj_countedState Stats.invitesConfirmed (fun s => rfl) ev u st c' k'⟩

lemma C8ok_grantKarma (c : Nat) (giver target : TgUser) (t : Nat) (st : BotState) :
    C8ok st (grantKarma c giver target t st).fst := by
  apply C8ok_of_eq
  intro c' k'
  exact ⟨statsProj_grantKarma Stats.invitesPending (fun s => rfl) (fun s => rfl)
      c giver target t st c' k',
    statsProj_grantKarma Stats.invitesConfirmed (fun s => rfl) (fun s => rfl)
      c giver target t st c' k'⟩

lemma C8ok_reduce (ev : MsgEvent) (st : BotState) : C8ok st (reduce ev st) := by
  by_cases hnm : ev.newMembers = []
  · cases hs : ev.sender with
    | none =>
      rw [reduce_nosender ev st hnm hs]
      exact C8ok_refl st
    | some u =>
      by_cases hid : u.id = 0
      · rw [reduce_id0 ev u st hnm hs hid]
        exact C8ok_refl st
      · rw [reduce_msg ev u st hnm hs hid]
        unfold reduceMsg
        cases hrep : ev.replyToUser with
        | none => exact C8ok_trans (C8ok_countedState ev u st) (C8ok_confirmSweep _ _ _)
        | some target =>
          dsimp only
          split
          · split
            · exact C8ok_trans (C8ok_countedState ev u st)
                (C8ok_trans (C8ok_grantKarma _ _ _ _ _) (C8ok_confirmSweep _ _ _))
            · exact C8ok_trans (C8ok_countedState ev u st) (C8ok_grantKarma _ _ _ _ _)
          · exact C8ok_trans (C8ok_countedState ev u st) (C8ok_confirmSweep _ _ _)
  · rw [reduce_join ev st hnm]
    exact C8ok_foldl _ (fun b a => C8ok_handleJoinOne ev.chatId ev.time ev.inviteLink b a)
      _ st

lemma C8ok_reduceAll (evs : List MsgEvent) (st : BotState) :
    C8ok st (reduceAll evs st) := by
  unfold reduceAll
  exact C8ok_foldl _ (fun b a => C8ok_reduce a b) _ st

/-- Claim C8: starting from a state where every `invitesPending` is non-negative,
after any event sequence every `invitesPending` is still non-negative (the
confirmation decrement saturates at 0), and for every inviter the sum
`invitesPending + invitesConfirmed` never decreases. -/
theorem invites_monotone_nonneg (evs : List MsgEvent) (st : BotState)
    (h : ∀ c k, 0 ≤ pendingOf st c k) :
    (∀ c k, 0 ≤ pendingOf (reduceAll evs st) c k) ∧
    (∀ c k, pendingOf st c k + confirmedInvOf st c k
      ≤ pendingOf (reduceAll evs st) c k + confirmedInvOf (reduceAll evs st) c k) := by
  have hok := C8ok_reduceAll evs st
  exact ⟨fun c k => (hok c k).1 (h c k), fun c k => (hok c k).2⟩

/-- Witness for C8: the duplicate-join event stream on `stTracked` (whose counters
are all zero) keeps pending counts non-negative and the pending+confirmed sums
monotone. -/
theorem invites_monotone_nonneg_witness :
    (∀ c k, 0 ≤ pendingOf (reduceAll [evDupJoin] stTracked) c k) ∧
    (∀ c k, pendingOf stTracked c k + confirmedInvOf stTracked c k
      ≤ pendingOf (reduceAll [evDupJoin] stTracked) c k
        + confirmedInvOf (reduceAll [evDupJoin] stTracked) c k) :=
  invites_monotone_nonneg [evDupJoin] stTracked (fun _ _ => le_refl 0)

/-! ### Claim C2: the confirmation state machine -/

lemma confirmed_row_sweepStep (c t : Nat) (st : BotState) (cand : JoinRow)
    (k : Nat × Nat) (r : JoinRow) (hr : lookupJoin st.joins k = some r)
    (hc : r.confirmed = true) :
    lookupJoin (sweepStep c t st cand).joins k = some r := by
  unfold sweepStep
  split
  · exact hr
  · split
    · exact hr
    · have hmain : lookupJoin (setConfirmed st.joins (c, cand.joinedUserId)) k = some r := by
        rw [lookupJoin_setConfirmed, hr, Option.map_some']
        split
        · rw [flip_confirmed_idem r hc]
        · rfl
      cases hinv : cand.inviterId with
      | none => exact hmain
      | some inv => rw [updateStats_joins]; exact hmain

lemma confirmed_row_confirmSweep (c t : Nat) (st : BotState) (k : Nat × Nat)
    (r : JoinRow) (hr : lookupJoin st.joins k = some r) (hc : r.confirmed = true) :
    lookupJoin (confirmSweep c t st).joins k = some r :=
  foldl_pres _ (fun b => lookupJoin b.joins k = some r)
    (fun b a hb => confirmed_row_sweepStep c t b a k r hb hc) _ _ hr

lemma confirmed_row_stable (ev : MsgEvent) (st : BotState) (k : Nat × Nat) (r : JoinRow)
    (hr : lookupJoin st.joins k = some r) (hc : r.confirmed = true) :
    lookupJoin (reduce ev st).joins k = some r := by
  by_cases hnm : ev.newMembers = []
  · cases hs : ev.sender with
    | none =>
      rw [reduce_nosender ev st hnm hs]
      exact hr
    | some u =>
      by_cases hid : u.id = 0
      · rw [reduce_id0 ev u st hnm hs hid]
        exact hr
      · rw [reduce_msg ev u st hnm hs hid]
        unfold reduceMsg
        cases hrep : ev.replyToUser with
        | none =>
          apply confirmed_row_confirmSweep _ _ _ _ _ _ hc
          rw [countedState_joins]
          exact hr
        | some target =>
          dsimp only
          split
          · split
            · apply confirmed_row_confirmSweep _ _ _ _ _ _ hc
              rw [grantKarma_joins, countedState_joins]
              exact hr
            · rw [grantKarma_joins, countedState_joins]
              exact hr
          · apply confirmed_row_confirmSweep _ _ _ _ _ _ hc
            rw [countedState_joins]
            exact hr
  · rw [reduce_join ev st hnm]
    exact foldl_pres _ (fun b => lookupJoin b.joins k = some r)
      (fun b a hb => handleJoinOne_joins_mono ev.chatId ev.time ev.inviteLink b a k r hb)
      _ st hr

lemma sweepStep_joins_split (c t : Nat) (st : BotState) (cand : JoinRow) :
    (sweepStep c t st cand).joins = st.joins ∨
    ((sweepStep c t st cand).joins = setConfirmed st.joins (c, cand.joinedUserId) ∧
      ¬(t - cand.joinedAt < INVITE_CONFIRM_AFTER_SECONDS) ∧
      ¬(messagesOf st c cand.joinedUserId < INVITE_CONFIRM_MIN_MESSAGES)) := by
  unfold sweepStep
  split
  · exact Or.inl rfl
  · split
    · exact Or.inl rfl
    · rename_i hT hM
      right
      refine ⟨?_, hT, hM⟩
      cases hinv : cand.inviterId with
      | none => rfl
      | some inv => rw [updateStats_joins]

lemma sweepAux (c t uid : Nat) (r : JoinRow) (st0 : BotState)
    (hnd : keysNodup st0.joins)
    (hr0 : lookupJoin st0.joins (c, uid) = some r) (cs : List JoinRow) :
    ∀ (st : BotState),
      (∀ cand ∈ cs, cand ∈ st0.joins ∧ cand.chatId = c) →
      (∀ c' k', messagesOf st c' k' = messagesOf st0 c' k') →
      (lookupJoin st.joins (c, uid) = some r ∨
        (lookupJoin st.joins (c, uid) = some { r with confirmed := true } ∧
          r.joinedAt + INVITE_CONFIRM_AFTER_SECONDS ≤ t ∧
          INVITE_CONFIRM_MIN_MESSAGES ≤ messagesOf st0 c uid)) →
      (lookupJoin (cs.foldl (sweepStep c t) st).joins (c, uid) = some r ∨
        (lookupJoin (cs.foldl (sweepStep c t) st).joins (c, uid)
            = some { r with confirmed := true } ∧
          r.joinedAt + INVITE_CONFIRM_AFTER_SECONDS ≤ t ∧
          INVITE_CONFIRM_MIN_MESSAGES ≤ messagesOf st0 c uid)) := by
  have hkeyr : joinKey r = (c, uid) := lookupJoin_found_key st0.joins (c, uid) r hr0
  induction cs with
  | nil => exact fun st _ _ hdisj => hdisj
  | cons x xs ih =>
    intro st hmem hmsg hdisj
    have hmem' : ∀ cand ∈ xs, cand ∈ st0.joins ∧ cand.chatId = c :=
      fun cand hcand => hmem cand (List.mem_cons_of_mem x hcand)
    have hmsg' : ∀ c' k', messagesOf (sweepStep c t st x) c' k' = messagesOf st0 c' k' :=
      fun c' k' =>
        (statsProj_sweepStep Stats.messages (fun s => rfl) c t st x c' k').trans (hmsg c' k')
    apply ih (sweepStep c t st x) hmem' hmsg'
    rcases sweepStep_joins_split c t st x with hj | ⟨hj, hT, hM⟩
    · rcases hdisj with hv | ⟨hv, hcond⟩
      · exact Or.inl (by rw [hj]; exact hv)
      · exact Or.inr ⟨by rw [hj]; exact hv, hcond⟩
    · by_cases hxu : x.joinedUserId = uid
      · have hx1 := hmem x (List.mem_cons_self x xs)
        have hxkey : joinKey x = (c, uid) := by
          unfold joinKey
          rw [hx1.2, hxu]
        have hxr : x = r :=
          lookup_unique_of_nodup st0.joins (c, uid) r x hnd hx1.1 hxkey hr0
        have hT2 : r.joinedAt + INVITE_CONFIRM_AFTER_SECONDS ≤ t := by
          rw [← hxr]
          simp only [INVITE_CONFIRM_AFTER_SECONDS] at hT ⊢
          omega
        have hM2 : INVITE_CONFIRM_MIN_MESSAGES ≤ messagesOf st0 c uid := by
          rw [hxu] at hM
          have h5 := hmsg c uid
          rw [h5] at hM
          exact not_lt.mp hM
        right
        refine ⟨?_, hT2, hM2⟩
        rw [hj, hxu, lookupJoin_setConfirmed]
        rcases hdisj with hv | ⟨hv, hcond⟩
        · rw [hv, Option.map_some', if_pos hkeyr]
        · have hkeyr2 : joinKey ({ r with confirmed := true } : JoinRow) = (c, uid) := by
            rw [joinKey_flip]
            exact hkeyr
          rw [hv, Option.map_some', if_pos hkeyr2]
      · have hneq : ¬((c, uid) : Nat × Nat) = (c, x.joinedUserId) := by
          intro hcc
          exact hxu (congrArg Prod.snd hcc).symm
        rcases hdisj with hv | ⟨hv, hcond⟩
        · left
          rw [hj, lookupJoin_setConfirmed, hv, Option.map_some',
            if_neg (show ¬joinKey r = (c, x.joinedUserId) from by rw [hkeyr]; exact hneq)]
        · right
          refine ⟨?_, hcond⟩
          rw [hj, lookupJoin_setConfirmed, hv, Option.map_some',
            if_neg (show ¬joinKey ({ r with confirmed := true } : JoinRow)
              = (c, x.joinedUserId) from by rw [joinKey_flip, hkeyr]; exact hneq)]

lemma sweep_pending_spec (c t : Nat) (st : BotState) (uid : Nat) (r : JoinRow)
    (hnd : keysNodup st.joins) (hr : lookupJoin st.joins (c, uid) = some r) :
    lookupJoin (confirmSweep c t st).joins (c, uid) = some r ∨
    (lookupJoin (confirmSweep c t st).joins (c, uid) = some { r with confirmed := true } ∧
      r.joinedAt + INVITE_CONFIRM_AFTER_SECONDS ≤ t ∧
      INVITE_CONFIRM_MIN_MESSAGES ≤ messagesOf st c uid) := by
  unfold confirmSweep
  apply sweepAux c t uid r st hnd hr (candidates st c) st ?hcand (fun c' k' => rfl)
    (Or.inl hr)
  intro cand hcand
  have hmem := List.take_subset 5 _ hcand
  have hflt := List.mem_filter.mp hmem
  have hprop := of_decide_eq_true hflt.2
  exact ⟨hflt.1, hprop.1⟩

/-- Claim C2: (a) a confirmed `InviteJoin` row is never reverted — any further
reduced event leaves it exactly as it is, so `confirmed` goes false→true at most
once; (b) a confirmation sweep either leaves a pending row exactly unchanged or
flips only its `confirmed` flag, and it flips it only if, at evaluation time, both
`now − joinedAt ≥ 24h` and the joined user's message count is ≥ 3. -/
theorem join_confirmation_spec :
    (∀ (ev : MsgEvent) (st : BotState) (k : Nat × Nat) (r : JoinRow),
      lookupJoin st.joins k = some r → r.confirmed = true →
      lookupJoin (reduce ev st).joins k = some r) ∧
    (∀ (c t : Nat) (st : BotState) (uid : Nat) (r : JoinRow),
      keysNodup st.joins → lookupJoin st.joins (c, uid) = some r →
      r.confirmed = false →
      lookupJoin (confirmSweep c t st).joins (c, uid) = some r ∨
      (lookupJoin (confirmSweep c t st).joins (c, uid)
          = some { r with confirmed := true } ∧
        r.joinedAt + INVITE_CONFIRM_AFTER_SECONDS ≤ t ∧
        INVITE_CONFIRM_MIN_MESSAGES ≤ messagesOf st c uid)) :=
  ⟨fun ev st k r hr hc => confirmed_row_stable ev st k r hr hc,
    fun c t st uid r hnd hr _ => sweep_pending_spec c t st uid r hnd hr⟩

/-- Witness for C2: on `stPend` (one pending join of user 5, 3 messages, joined at
time 0) a sweep at time 100000 either leaves the row pending or confirms it with
both conditions established. -/
theorem join_confirmation_spec_witness :
    lookupJoin (confirmSweep 1 100000 stPend).joins (1, 5)
        = some ⟨1, 5, some 3, 0, false⟩ ∨
    (lookupJoin (confirmSweep 1 100000 stPend).joins (1, 5)
        = some ⟨1, 5, some 3, 0, true⟩ ∧
      (0 : Nat) + INVITE_CONFIRM_AFTER_SECONDS ≤ 100000 ∧
      INVITE_CONFIRM_MIN_MESSAGES ≤ messagesOf stPend 1 5) :=
  join_confirmation_spec.2 1 100000 stPend 5 ⟨1, 5, some 3, 0, false⟩
    (by decide) (by decide) (by decide)

end FamPoints
